import Mathlib

/-!
Shallow embedding of the sitar/tabla separation pipeline
(src/sitar_tabla_separator.py, src/sep.py).

Samples are modelled as extended rationals (`Sample`): a finite rational
or one of the IEEE non-finite values NaN / +inf / -inf.  Library calls
whose numeric output is irrational (the IIR filter recurrence, the STFT
masking core of librosa's hpss, FFT bin values) are taken as explicit
function parameters, while their validation behaviour and the shapes of
their outputs are modelled concretely from the documented library
semantics.  Errors raised by Python code are modelled with `Except`.
-/

namespace SitarSep

/-- One audio sample: a finite rational value or an IEEE non-finite value. -/
inductive Sample where
  | finite (q : ℚ)
  | nan
  | posinf
  | neginf
deriving DecidableEq

/-- Whether a sample is a finite number (neither NaN nor infinite). -/
def Sample.isFinite : Sample → Bool
  | Sample.finite _ => true
  | _ => false

/-- Errors raised by the Python code, one constructor per distinct
exception site.  `invalidFilterRange` is scipy's ValueError for invalid
critical frequencies (the spec's InvalidFilterRange); `emptySignal` is
numpy's ValueError from `np.max` of a zero-size array (the spec's
EmptySignal); `fileNotFoundError` and `calledProcessError` are the two
subprocess exceptions (the spec's ExternalToolMissing and
ExternalToolFailure); `invalidFFTPoints` is numpy's ValueError from
`np.fft.rfft` on zero data points. -/
inductive PyError where
  | invalidFilterRange
  | emptySignal
  | fileNotFoundError
  | calledProcessError (exitCode : ℕ)
  | invalidFFTPoints
deriving DecidableEq

deriving instance DecidableEq for Except

/-- The parameters scipy's `butter` derives the coefficients from: the
requested order and the two normalized critical frequencies.  The
numeric coefficient computation (Butterworth prototype plus bilinear
transform) is irrational and is abstracted behind the `lfilter`
parameter of `apply_eq`; the design record keeps exactly the data the
repository hands to the library. -/
structure BandstopDesign where
  order : ℕ
  low : ℚ
  high : ℚ
deriving DecidableEq

/-- Models `scipy.signal.butter(order, [low, high], btype="bandstop")`
for a digital filter: scipy's `iirfilter` raises ValueError when the
band edges are not increasing (`Wn[0] must be less than Wn[1]`) and
when any critical frequency lies outside the open interval (0, 1)
(`Digital filter critical frequencies must be 0 < Wn < 1`); otherwise
the design succeeds with exactly the requested order. -/
def butter (order : ℕ) (low high : ℚ) : Except PyError BandstopDesign :=
  if ¬ low < high then Except.error PyError.invalidFilterRange
  else if low ≤ 0 ∨ high ≤ 0 ∨ 1 ≤ low ∨ 1 ≤ high then Except.error PyError.invalidFilterRange
  else Except.ok ⟨order, low, high⟩

/-- Source `butter_bandstop(lowcut, highcut, fs, order=4)`: normalizes the
cutoffs against the Nyquist frequency `nyq = 0.5 * fs` and designs the
band-stop filter.  The `order` argument defaults to 4 as in the source. -/
def butter_bandstop (lowcut highcut fs : ℚ) (order : ℕ := 4) : Except PyError BandstopDesign :=
  let nyq := (1 / 2 : ℚ) * fs
  let low := lowcut / nyq
  let high := highcut / nyq
  butter order low high

/-- Source `apply_eq(data, lowcut, highcut, fs)`: designs the band-stop
filter with `butter_bandstop` (leaving `order` at its default) and runs
`lfilter` over the data.  The scipy `lfilter` recurrence itself is the
function parameter `lfilter`; if the design raises, the exception
propagates and `lfilter` is never applied. -/
def apply_eq (lfilter : BandstopDesign → List Sample → List Sample)
    (data : List Sample) (lowcut highcut fs : ℚ) : Except PyError (List Sample) :=
  match butter_bandstop lowcut highcut fs with
  | Except.error e => Except.error e
  | Except.ok d => Except.ok (lfilter d data)

/-- Models the spec data model record FilterSpec (lowHz, highHz, order).
The source passes the two cutoffs as plain scalars and has no record
type; the order field exists only in the spec's data model. -/
structure FilterSpec where
  lowHz : ℚ
  highHz : ℚ
  order : ℕ
deriving DecidableEq

/-- The filter design requested by `apply_eq` for a given FilterSpec:
`apply_eq` forwards only the cutoffs to `butter_bandstop`, leaving the
design order at `butter_bandstop`'s default of 4; the spec's order field
never reaches the design. -/
def designedByApplyEq (s : FilterSpec) (fs : ℚ) : Except PyError BandstopDesign :=
  butter_bandstop s.lowHz s.highHz fs

theorem apply_eq_design (lfilter : BandstopDesign → List Sample → List Sample)
    (data : List Sample) (s : FilterSpec) (fs : ℚ) :
    apply_eq lfilter data s.lowHz s.highHz fs = (designedByApplyEq s fs).map (lfilter · data) := by
  cases h : designedByApplyEq s fs <;>
    simp [apply_eq, designedByApplyEq] at h ⊢ <;> simp [h, Except.map]

/-- Models `np.nan_to_num(x, nan=0.0, posinf=0.0, neginf=0.0)`:
every non-finite sample is replaced by 0.0, finite samples pass through. -/
def nan_to_num (xs : List Sample) : List Sample :=
  xs.map fun s =>
    match s with
    | Sample.finite q => Sample.finite q
    | _ => Sample.finite 0

theorem mem_nan_to_num_isFinite (xs : List Sample) :
    ∀ s ∈ nan_to_num xs, s.isFinite = true := by
  intro s hs
  simp only [nan_to_num, List.mem_map] at hs
  obtain ⟨t, -, rfl⟩ := hs
  cases t <;> rfl

theorem butter_error (order : ℕ) (low high : ℚ)
    (h : high ≤ low ∨ low ≤ 0 ∨ 1 ≤ high) :
    butter order low high = Except.error PyError.invalidFilterRange := by
  unfold butter
  rcases h with h | h | h
  · rw [if_pos (not_lt.mpr h)]
  · by_cases hlt : low < high
    · rw [if_neg (not_not_intro hlt), if_pos (Or.inl h)]
    · rw [if_pos hlt]
  · by_cases hlt : low < high
    · rw [if_neg (not_not_intro hlt), if_pos (Or.inr (Or.inr (Or.inr h)))]
    · rw [if_pos hlt]

theorem butter_bandstop_error (lowcut highcut fs : ℚ) (hfs : 0 < fs)
    (hbad : highcut ≤ lowcut ∨ lowcut ≤ 0 ∨ fs / 2 ≤ highcut) :
    butter_bandstop lowcut highcut fs = Except.error PyError.invalidFilterRange := by
  have hnyq : (0 : ℚ) < (1 / 2 : ℚ) * fs := by positivity
  show butter 4 (lowcut / ((1 / 2 : ℚ) * fs)) (highcut / ((1 / 2 : ℚ) * fs)) =
    Except.error PyError.invalidFilterRange
  apply butter_error
  rcases hbad with h | h | h
  · exact Or.inl ((div_le_div_iff_of_pos_right hnyq).mpr h)
  · exact Or.inr (Or.inl (div_nonpos_iff.mpr (Or.inr ⟨h, le_of_lt hnyq⟩)))
  · refine Or.inr (Or.inr ?_)
    rw [le_div_iff₀ hnyq]
    linarith

/-- C1: a FilterSpec whose cutoffs violate the invariant (low ≥ high,
low ≤ 0, or high ≥ sampleRate/2) makes the band-stop operation fail with
the InvalidFilterRange error: `apply_eq` returns the error whatever the
filter recurrence would have computed (so no filtering occurs), and no
output waveform is produced. -/
theorem c1_invalid_filter_range (lfilter : BandstopDesign → List Sample → List Sample)
    (data : List Sample) (s : FilterSpec) (fs : ℚ) (hfs : 0 < fs)
    (hbad : s.highHz ≤ s.lowHz ∨ s.lowHz ≤ 0 ∨ fs / 2 ≤ s.highHz) :
    apply_eq lfilter data s.lowHz s.highHz fs = Except.error PyError.invalidFilterRange := by
  have h := butter_bandstop_error s.lowHz s.highHz fs hfs hbad
  simp [apply_eq, h]

theorem c1_invalid_filter_range_witness :
    (0 : ℚ) < 1000 ∧ ((100 : ℚ) ≤ 200 ∨ (200 : ℚ) ≤ 0 ∨ (1000 : ℚ) / 2 ≤ 100) ∧
    apply_eq (fun _ d => d) [] (200 : ℚ) (100 : ℚ) (1000 : ℚ) =
      Except.error PyError.invalidFilterRange :=
  ⟨by norm_num, Or.inl (by norm_num),
    c1_invalid_filter_range (fun _ d => d) [] ⟨200, 100, 4⟩ 1000 (by norm_num)
      (Or.inl (by norm_num))⟩

theorem butter_ok (order : ℕ) (low high : ℚ)
    (h0 : 0 < low) (h1 : low < high) (h2 : high < 1) :
    butter order low high = Except.ok ⟨order, low, high⟩ := by
  unfold butter
  rw [if_neg (not_not_intro h1), if_neg]
  push_neg
  exact ⟨h0, lt_trans h0 h1, lt_trans h1 h2, h2⟩

/-- C4 counterexample: for the valid FilterSpec (low 100 Hz, high 200 Hz,
order 2) at sample rate 1000 Hz, the design requested by `apply_eq` has
order 4, not the FilterSpec's order 2: `apply_eq` leaves
`butter_bandstop`'s order argument at its default. -/
theorem c4_order_counterexample :
    (designedByApplyEq ⟨100, 200, 2⟩ 1000).map BandstopDesign.order = Except.ok 4 ∧
    (Except.ok 4 : Except PyError ℕ) ≠ Except.ok (FilterSpec.mk 100 200 2).order := by
  constructor
  · show (butter 4 ((100 : ℚ) / ((1 / 2 : ℚ) * 1000)) ((200 : ℚ) / ((1 / 2 : ℚ) * 1000))).map
      BandstopDesign.order = Except.ok 4
    rw [butter_ok 4 _ _ (by norm_num) (by norm_num) (by norm_num)]
    rfl
  · decide

/-- C4 amended: for every valid FilterSpec and positive sample rate, the
band-stop operation designs its filter with order 4 (the default of
`butter_bandstop`), regardless of the FilterSpec's order field. -/
theorem c4_order_always_four (s : FilterSpec) (fs : ℚ) (hfs : 0 < fs)
    (h1 : 0 < s.lowHz) (h2 : s.lowHz < s.highHz) (h3 : s.highHz < fs / 2) :
    ∃ d, designedByApplyEq s fs = Except.ok d ∧ d.order = 4 := by
  have hnyq : (0 : ℚ) < (1 / 2 : ℚ) * fs := by positivity
  refine ⟨⟨4, s.lowHz / ((1 / 2 : ℚ) * fs), s.highHz / ((1 / 2 : ℚ) * fs)⟩, ?_, rfl⟩
  show butter 4 (s.lowHz / ((1 / 2 : ℚ) * fs)) (s.highHz / ((1 / 2 : ℚ) * fs)) =
    Except.ok ⟨4, s.lowHz / ((1 / 2 : ℚ) * fs), s.highHz / ((1 / 2 : ℚ) * fs)⟩
  exact butter_ok 4 _ _ (div_pos h1 hnyq)
    ((div_lt_div_iff_of_pos_right hnyq).mpr h2)
    ((div_lt_one hnyq).mpr (by linarith))

theorem c4_order_always_four_witness :
    (0 : ℚ) < 1000 ∧ (0 : ℚ) < 100 ∧ (100 : ℚ) < 200 ∧ (200 : ℚ) < 1000 / 2 ∧
    ∃ d, designedByApplyEq ⟨100, 200, 7⟩ 1000 = Except.ok d ∧ d.order = 4 :=
  ⟨by norm_num, by norm_num, by norm_num, by norm_num,
    c4_order_always_four ⟨100, 200, 7⟩ 1000 (by norm_num) (by norm_num) (by norm_num)
      (by norm_num)⟩

/-- The statistics record computed by `signal_stats`.  The source returns
`rms = sqrt(mean(audio**2))`; since the square root of a rational is
irrational in general, the record carries the radicand `meanSquare` and
the root is taken at the statement level (`Real.sqrt meanSquare`). -/
structure Stats where
  duration : ℚ
  meanSquare : ℚ
  peak : ℚ
deriving DecidableEq

/-- Models `np.mean` on a nonempty array: sum divided by length. -/
def mean (xs : List ℚ) : ℚ := xs.sum / xs.length

/-- The three statistics the source computes for a nonempty signal:
`duration = len(audio)/sr`, the mean of the squared samples (whose
square root is the reported rms), and `peak = np.max(np.abs(audio))`.
For nonempty input the fold with neutral element 0 equals `np.max` of
the absolute values, all of which are nonnegative. -/
def statsUnchecked (audio : List ℚ) (sr : ℚ) : Stats :=
  { duration := (audio.length : ℚ) / sr
    meanSquare := mean (audio.map fun x => x ^ 2)
    peak := (audio.map fun x => |x|).foldr max 0 }

/-- Source `signal_stats(audio, sr)`: on a zero-length signal
`np.max(np.abs(audio))` raises ValueError (zero-size reduction), so the
call fails — the spec's EmptySignal — and no statistics are returned;
otherwise duration, rms and peak are computed as in `statsUnchecked`. -/
def signal_stats (audio : List ℚ) (sr : ℚ) : Except PyError Stats :=
  match audio with
  | [] => Except.error PyError.emptySignal
  | a :: rest => Except.ok (statsUnchecked (a :: rest) sr)

/-- C2: computing statistics of a length-0 waveform fails with the
EmptySignal error, whatever the sample rate, and no statistics record is
produced. -/
theorem c2_empty_signal_stats (sr : ℚ) :
    signal_stats [] sr = Except.error PyError.emptySignal := rfl

/-- Deterministic pad-or-truncate to a target length, zero-padding on the
right: models the length argument of librosa's inverse STFT
(`librosa.util.fix_length`), which guarantees the documented output
length of `librosa.effects.hpss`. -/
def fix_length (xs : List Sample) (n : ℕ) : List Sample :=
  xs.take n ++ List.replicate (n - xs.length) (Sample.finite 0)

theorem fix_length_length (xs : List Sample) (n : ℕ) : (fix_length xs n).length = n := by
  simp only [fix_length, List.length_append, List.length_take, List.length_replicate]
  omega

/-- Models `librosa.effects.hpss(y)`: STFT, median-filtered soft masking
and the two masked inverse transforms (abstracted as the function
parameter `core`, since their values are irrational), with both outputs
trimmed or zero-padded to exactly the input length (librosa inverts with
`length=len(y)`). -/
def hpss (core : List Sample → List Sample × List Sample) (y : List Sample) :
    List Sample × List Sample :=
  (fix_length (core y).1 y.length, fix_length (core y).2 y.length)

/-- Source `run_hpss(audio_path)`: loads the file as mono audio `(y, sr)`,
applies `librosa.effects.hpss`, and returns `(harmonic, percussive, sr)`
with the loaded sample rate passed through unchanged. -/
def run_hpss (core : List Sample → List Sample × List Sample)
    (y : List Sample) (sr : ℚ) : List Sample × List Sample × ℚ :=
  ((hpss core y).1, (hpss core y).2, sr)

/-- C6: for every non-empty mono waveform, the decompose operation
returns harmonic and percussive parts whose lengths both equal the input
length and whose sample rate equals the input sample rate, whatever the
masking core computes. -/
theorem c6_hpss_length_and_rate (core : List Sample → List Sample × List Sample)
    (y : List Sample) (sr : ℚ) (h : y ≠ []) :
    (run_hpss core y sr).1.length = y.length ∧
    (run_hpss core y sr).2.1.length = y.length ∧
    (run_hpss core y sr).2.2 = sr :=
  ⟨fix_length_length _ _, fix_length_length _ _, rfl⟩

theorem c6_hpss_length_and_rate_witness :
    ([Sample.finite 1] ≠ ([] : List Sample)) ∧
    ((run_hpss (fun l => (l, l)) [Sample.finite 1] 44100).1.length =
        [Sample.finite 1].length ∧
      (run_hpss (fun l => (l, l)) [Sample.finite 1] 44100).2.1.length =
        [Sample.finite 1].length ∧
      (run_hpss (fun l => (l, l)) [Sample.finite 1] 44100).2.2 = 44100) :=
  ⟨by decide, c6_hpss_length_and_rate (fun l => (l, l)) [Sample.finite 1] 44100 (by decide)⟩

/-- Source `apply_hpss_with_eq(audio_path, notch_low, notch_high)`: loads
mono audio, decomposes it with hpss, band-stop filters the harmonic stem
with `apply_eq`, replaces non-finite samples of the filtered stem with
0.0 via `np.nan_to_num(..., nan=0.0, posinf=0.0, neginf=0.0)` (the final
`np.asarray(...).flatten()` is the identity on the 1-D array), and
returns `(harmonic, percussive, harmonic_eq, sr)`. -/
def apply_hpss_with_eq (core : List Sample → List Sample × List Sample)
    (lfilter : BandstopDesign → List Sample → List Sample)
    (y : List Sample) (sr notch_low notch_high : ℚ) :
    Except PyError (List Sample × List Sample × List Sample × ℚ) :=
  match apply_eq lfilter (hpss core y).1 notch_low notch_high sr with
  | Except.error e => Except.error e
  | Except.ok harmonic_eq =>
      Except.ok ((hpss core y).1, (hpss core y).2, nan_to_num harmonic_eq, sr)

/-- C3: whenever the band-stop path returns a waveform (the FilterSpec
was valid, so `apply_eq` succeeded), every sample of the returned
filtered stem is finite: non-finite filter output has been replaced by
0.0 before the result reaches the caller, whatever values the filter
recurrence produced. -/
theorem c3_filtered_samples_finite (core : List Sample → List Sample × List Sample)
    (lfilter : BandstopDesign → List Sample → List Sample)
    (y : List Sample) (sr notch_low notch_high : ℚ)
    (out : List Sample × List Sample × List Sample × ℚ)
    (h : apply_hpss_with_eq core lfilter y sr notch_low notch_high = Except.ok out) :
    ∀ s ∈ out.2.2.1, s.isFinite = true := by
  unfold apply_hpss_with_eq at h
  cases hb : apply_eq lfilter (hpss core y).1 notch_low notch_high sr with
  | error e =>
      rw [hb] at h
      exact absurd h (by simp)
  | ok fe =>
      rw [hb] at h
      simp only [Except.ok.injEq] at h
      subst h
      exact mem_nan_to_num_isFinite fe

theorem butter_bandstop_100_200_1000 :
    butter_bandstop (100 : ℚ) 200 1000 = Except.ok ⟨4, 1 / 5, 2 / 5⟩ := by
  show butter 4 ((100 : ℚ) / ((1 / 2 : ℚ) * 1000)) ((200 : ℚ) / ((1 / 2 : ℚ) * 1000)) = _
  rw [butter_ok 4 _ _ (by norm_num) (by norm_num) (by norm_num)]
  simp only [Except.ok.injEq, BandstopDesign.mk.injEq]
  norm_num

theorem c3_filtered_samples_finite_witness :
    apply_hpss_with_eq (fun l => (l, l)) (fun _ d => d) [Sample.nan] 1000 100 200 =
      Except.ok ([Sample.nan], [Sample.nan], [Sample.finite 0], 1000) ∧
    ∀ s ∈ [Sample.finite 0], s.isFinite = true := by
  have h : apply_hpss_with_eq (fun l => (l, l)) (fun _ d => d) [Sample.nan] 1000 100 200 =
      Except.ok ([Sample.nan], [Sample.nan], [Sample.finite 0], 1000) := by
    simp [apply_hpss_with_eq, apply_eq, hpss, fix_length, nan_to_num,
      butter_bandstop_100_200_1000]
  exact ⟨h, c3_filtered_samples_finite (fun l => (l, l)) (fun _ d => d) [Sample.nan]
    1000 100 200 ([Sample.nan], [Sample.nan], [Sample.finite 0], 1000) h⟩

/-- The filter-then-sanitize composite as the pipeline performs it
(`apply_eq` followed immediately by `np.nan_to_num` on its result,
inline in `apply_hpss_with_eq`), named so it can be iterated. -/
def eq_sanitized (lfilter : BandstopDesign → List Sample → List Sample)
    (data : List Sample) (lowcut highcut fs : ℚ) : Except PyError (List Sample) :=
  match apply_eq lfilter data lowcut highcut fs with
  | Except.error e => Except.error e
  | Except.ok filtered => Except.ok (nan_to_num filtered)

theorem eq_sanitized_ok_finite (lfilter : BandstopDesign → List Sample → List Sample)
    (data : List Sample) (lowcut highcut fs : ℚ) (w : List Sample)
    (h : eq_sanitized lfilter data lowcut highcut fs = Except.ok w) :
    ∀ s ∈ w, s.isFinite = true := by
  unfold eq_sanitized at h
  cases hb : apply_eq lfilter data lowcut highcut fs with
  | error e =>
      rw [hb] at h
      exact absurd h (by simp)
  | ok fe =>
      rw [hb] at h
      simp only [Except.ok.injEq] at h
      subst h
      exact mem_nan_to_num_isFinite fe

/-- C7: applying the sanitizing band-stop composite a second time with
the same spec to an already filtered-and-sanitized waveform again yields
only finite samples — filtering twice never reintroduces non-finite
samples, whatever the filter recurrence does. -/
theorem c7_double_filter_finite (lfilter : BandstopDesign → List Sample → List Sample)
    (data : List Sample) (lowcut highcut fs : ℚ) (w1 w2 : List Sample)
    (h1 : eq_sanitized lfilter data lowcut highcut fs = Except.ok w1)
    (h2 : eq_sanitized lfilter w1 lowcut highcut fs = Except.ok w2) :
    ∀ s ∈ w2, s.isFinite = true :=
  eq_sanitized_ok_finite lfilter w1 lowcut highcut fs w2 h2

theorem c7_double_filter_finite_witness :
    eq_sanitized (fun _ d => d) [Sample.nan] 100 200 1000 = Except.ok [Sample.finite 0] ∧
    eq_sanitized (fun _ d => d) [Sample.finite 0] 100 200 1000 =
      Except.ok [Sample.finite 0] ∧
    ∀ s ∈ [Sample.finite 0], s.isFinite = true := by
  have h1 : eq_sanitized (fun _ d => d) [Sample.nan] 100 200 1000 =
      Except.ok [Sample.finite 0] := by
    simp [eq_sanitized, apply_eq, nan_to_num, butter_bandstop_100_200_1000]
  have h2 : eq_sanitized (fun _ d => d) [Sample.finite 0] 100 200 1000 =
      Except.ok [Sample.finite 0] := by
    simp [eq_sanitized, apply_eq, nan_to_num, butter_bandstop_100_200_1000]
  exact ⟨h1, h2, c7_double_filter_finite (fun _ d => d) [Sample.nan] 100 200 1000
    [Sample.finite 0] [Sample.finite 0] h1 h2⟩

/-- Outcome of attempting to launch the external engine: the executable
may be absent from the search path, or it runs to completion with an
exit status. -/
inductive SubprocessOutcome where
  | missing
  | exit (code : ℕ)
deriving DecidableEq

/-- Models `subprocess.run(cmd, check=True)`: a missing executable raises
FileNotFoundError, `check=True` raises CalledProcessError on a nonzero
exit status, and a zero exit status returns normally. -/
def subprocessRunCheck (outcome : SubprocessOutcome) : Except PyError Unit :=
  match outcome with
  | SubprocessOutcome.missing => Except.error PyError.fileNotFoundError
  | SubprocessOutcome.exit code =>
      if code = 0 then Except.ok () else Except.error (PyError.calledProcessError code)

/-- Source `run_demucs(audio_path, out_dir)`: builds the demucs command
line and runs it as a blocking subprocess with `check=True`, so the two
failure modes surface as the two distinct subprocess exceptions. -/
def run_demucs (outcome : SubprocessOutcome) : Except PyError Unit :=
  subprocessRunCheck outcome

/-- The error the Demucs UI branch reports when `run_demucs` raises: the
source wraps the call in a bare `except Exception` handler that always
shows the same message and stops, for every exception. Returns `none`
when the run succeeded. -/
def demucsBranchReport (outcome : SubprocessOutcome) : Option String :=
  match run_demucs outcome with
  | Except.ok _ => none
  | Except.error _ => some "Demucs not found. Install with: pip install demucs"

/-- C5 counterexample: a missing engine and an engine that ran but exited
with status 1 produce the identical user-visible report, so the two
failure causes are not distinguished in the reported error. -/
theorem c5_report_counterexample :
    demucsBranchReport SubprocessOutcome.missing =
      demucsBranchReport (SubprocessOutcome.exit 1) ∧
    demucsBranchReport SubprocessOutcome.missing =
      some "Demucs not found. Install with: pip install demucs" :=
  ⟨rfl, rfl⟩

/-- C5 amended: `run_demucs` itself fails with FileNotFoundError (the
spec's ExternalToolMissing) exactly when the engine cannot be located
and with the distinct CalledProcessError (ExternalToolFailure) exactly
on a nonzero exit status, but the caller's handler reports the same
message for both causes, so the report does not distinguish them. -/
theorem c5_amended_distinct_errors_same_report :
    (∀ o, run_demucs o = Except.error PyError.fileNotFoundError ↔
      o = SubprocessOutcome.missing) ∧
    (∀ c, run_demucs (SubprocessOutcome.exit c) =
      Except.error (PyError.calledProcessError c) ↔ c ≠ 0) ∧
    (∀ c, PyError.fileNotFoundError ≠ PyError.calledProcessError c) ∧
    demucsBranchReport SubprocessOutcome.missing =
      demucsBranchReport (SubprocessOutcome.exit 1) := by
  refine ⟨?_, ?_, ?_, rfl⟩
  · intro o
    cases o with
    | missing => simp [run_demucs, subprocessRunCheck]
    | exit c => by_cases hc : c = 0 <;> simp [run_demucs, subprocessRunCheck, hc]
  · intro c
    by_cases hc : c = 0 <;> simp [run_demucs, subprocessRunCheck, hc]
  · intro c h
    exact PyError.noConfusion h

/-- Models `np.fft.rfft(audio)`: numpy raises ValueError when the number
of FFT data points is less than one; otherwise it returns the one-sided
spectrum of length n/2 + 1, whose (irrational) complex bin values are
abstracted as the function parameter `dft`. -/
def rfft {α : Type} (dft : List ℚ → ℕ → α) (audio : List ℚ) : Except PyError (List α) :=
  if audio.length < 1 then Except.error PyError.invalidFFTPoints
  else Except.ok ((List.range (audio.length / 2 + 1)).map (dft audio))

/-- Models `np.fft.rfftfreq(n, d)`: the frequencies k / (n * d) for
k = 0 .. n/2, uniformly spaced from 0 to the Nyquist frequency. -/
def rfftfreq (n : ℕ) (d : ℚ) : List ℚ :=
  (List.range (n / 2 + 1)).map fun k => (k : ℚ) / ((n : ℚ) * d)

/-- Source `plot_fft(audio, sr, ...)`: computes `np.fft.rfft(audio)`
first, then the frequency axis `np.fft.rfftfreq(len(audio), d=1/sr)`,
and renders magnitude against frequency; the spectrum data underlying
the plot is the pairing of the two. -/
def plot_fft_spectrum {α : Type} (dft : List ℚ → ℕ → α) (audio : List ℚ) (sr : ℚ) :
    Except PyError (List (ℚ × α)) :=
  match rfft dft audio with
  | Except.error e => Except.error e
  | Except.ok spec => Except.ok ((rfftfreq audio.length (1 / sr)).zip spec)

/-- C10: the spectrum operation applied to a waveform of length 0 does
not return an empty spectrum: the underlying real FFT fails on zero
data points, so `plot_fft` raises for every sample rate and every bin
semantics. -/
theorem c10_empty_fft_fails {α : Type} (dft : List ℚ → ℕ → α) (sr : ℚ) :
    plot_fft_spectrum dft ([] : List ℚ) sr = Except.error PyError.invalidFFTPoints ∧
    ∀ l : List (ℚ × α), plot_fft_spectrum dft ([] : List ℚ) sr ≠ Except.ok l := by
  refine ⟨rfl, ?_⟩
  intro l h
  rw [show plot_fft_spectrum dft ([] : List ℚ) sr =
    Except.error PyError.invalidFFTPoints from rfl] at h
  exact Except.noConfusion h

theorem foldr_max_nonneg (xs : List ℚ) : 0 ≤ xs.foldr max 0 := by
  induction xs with
  | nil => exact le_refl 0
  | cons a l ih => exact le_max_of_le_right ih

theorem abs_le_peak (audio : List ℚ) :
    ∀ x ∈ audio, |x| ≤ (audio.map fun v => |v|).foldr max 0 := by
  induction audio with
  | nil => simp
  | cons a l ih =>
      intro x hx
      simp only [List.map_cons, List.foldr_cons]
      rcases List.mem_cons.mp hx with rfl | hx
      · exact le_max_left _ _
      · exact le_max_of_le_right (ih x hx)

theorem sum_sq_le_length_mul (audio : List ℚ) (p : ℚ)
    (hp : ∀ x ∈ audio, |x| ≤ p) :
    (audio.map fun x => x ^ 2).sum ≤ (audio.length : ℚ) * p ^ 2 := by
  induction audio with
  | nil => simp
  | cons a l ih =>
      simp only [List.map_cons, List.sum_cons, List.length_cons]
      have ha : |a| ≤ p := hp a (List.mem_cons_self a l)
      have h1 : a ^ 2 ≤ p ^ 2 := by nlinarith [abs_nonneg a, sq_abs a]
      have h2 := ih fun x hx => hp x (List.mem_cons_of_mem a hx)
      push_cast
      nlinarith

theorem mean_sq_le_peak_sq (audio : List ℚ) (p : ℚ) (hne : audio ≠ [])
    (hp : ∀ x ∈ audio, |x| ≤ p) :
    mean (audio.map fun x => x ^ 2) ≤ p ^ 2 := by
  have hlen : (0 : ℚ) < (audio.length : ℚ) := by
    exact_mod_cast List.length_pos.mpr hne
  unfold mean
  rw [List.length_map, div_le_iff₀ hlen]
  calc (audio.map fun x => x ^ 2).sum ≤ (audio.length : ℚ) * p ^ 2 :=
        sum_sq_le_length_mul audio p hp
    _ = p ^ 2 * (audio.length : ℚ) := mul_comm _ _

theorem signal_stats_ok (audio : List ℚ) (sr : ℚ) (h : audio ≠ []) :
    signal_stats audio sr = Except.ok (statsUnchecked audio sr) := by
  cases audio with
  | nil => exact absurd rfl h
  | cons a l => rfl

/-- C9: on every non-empty waveform with positive sample rate the
computed statistics satisfy rms ≤ peak (the root of the mean squared
sample never exceeds the maximal absolute sample), and duration, rms and
peak are all nonnegative. -/
theorem c9_rms_le_peak (audio : List ℚ) (sr : ℚ) (hne : audio ≠ []) (hsr : 0 < sr) :
    ∃ st, signal_stats audio sr = Except.ok st ∧
      0 ≤ st.duration ∧ 0 ≤ st.peak ∧ 0 ≤ Real.sqrt (st.meanSquare : ℝ) ∧
      Real.sqrt (st.meanSquare : ℝ) ≤ (st.peak : ℝ) := by
  refine ⟨statsUnchecked audio sr, signal_stats_ok audio sr hne, ?_, ?_,
    Real.sqrt_nonneg _, ?_⟩
  · exact div_nonneg (by positivity) (le_of_lt hsr)
  · exact foldr_max_nonneg _
  · have hm : mean (audio.map fun x => x ^ 2) ≤
        ((audio.map fun v => |v|).foldr max 0) ^ 2 :=
      mean_sq_le_peak_sq audio _ hne (abs_le_peak audio)
    have hs : Real.sqrt ((mean (audio.map fun x => x ^ 2) : ℚ) : ℝ) ≤
        Real.sqrt ((((audio.map fun v => |v|).foldr max 0 : ℚ) : ℝ) ^ 2) := by
      apply Real.sqrt_le_sqrt
      exact_mod_cast hm
    rwa [Real.sqrt_sq (by exact_mod_cast foldr_max_nonneg _)] at hs

theorem c9_rms_le_peak_witness :
    ([1, 2] : List ℚ) ≠ [] ∧ (0 : ℚ) < 2 ∧
    (∃ st, signal_stats ([1, 2] : List ℚ) 2 = Except.ok st ∧
      0 ≤ st.duration ∧ 0 ≤ st.peak ∧ 0 ≤ Real.sqrt (st.meanSquare : ℝ) ∧
      Real.sqrt (st.meanSquare : ℝ) ≤ (st.peak : ℝ)) :=
  ⟨by decide, by norm_num, c9_rms_le_peak [1, 2] 2 (by decide) (by norm_num)⟩

/-- Kinds of the three images rendered for each signal subsection. -/
inductive ImgKind where
  | waveform
  | fft
  | spectrogram
deriving DecidableEq

/-- A node of the structured report content tree handed to the external
renderer: one constructor per kind of flowable the source appends to the
story, carrying the data that determines it (visual styling is the
renderer's concern and is not modelled). -/
inductive Flowable where
  | titlePara (text : String)
  | subtitlePara (filename method_label : String)
  | hr
  | sectionPara (text : String)
  | notePara (text : String)
  | eqTable (low high : ℤ)
  | spacer
  | signalPara (label : String)
  | statsTable (st : Stats) (sr : ℚ)
  | image (kind : ImgKind) (label : String)
  | footerPara
deriving DecidableEq

/-- One entry of the `signals` list passed to `build_pdf`: a dict with
keys label, audio, sr. -/
structure SignalDict where
  label : String
  audio : List ℚ
  sr : ℚ
deriving DecidableEq

/-- The flowables the per-signal loop of `build_pdf` appends for one
signal once its statistics are known: heading, statistics table, and the
three images — waveform, frequency spectrum, spectrogram, in that order
— with spacers and a closing rule. -/
def signalFlowables (sig : SignalDict) (st : Stats) : List Flowable :=
  [Flowable.signalPara sig.label, Flowable.statsTable st sig.sr, Flowable.spacer,
   Flowable.image ImgKind.waveform sig.label, Flowable.spacer,
   Flowable.image ImgKind.fft sig.label, Flowable.spacer,
   Flowable.image ImgKind.spectrogram sig.label, Flowable.spacer, Flowable.hr]

/-- The per-signal loop of `build_pdf`: for each signal in the given
order, compute `signal_stats` (a zero-length signal raises there,
aborting the whole build before any document is produced) and append
that signal's flowables. -/
def signalSections (signals : List SignalDict) : Except PyError (List Flowable) :=
  match signals with
  | [] => Except.ok []
  | sig :: rest =>
      match signal_stats sig.audio sig.sr with
      | Except.error e => Except.error e
      | Except.ok st =>
          match signalSections rest with
          | Except.error e => Except.error e
          | Except.ok tail => Except.ok (signalFlowables sig st ++ tail)

/-- Source `build_pdf(filename, method_label, signals, method_note,
notch_params=None)`: assembles the story in a fixed order — title block
(title, generated/file/method line, rule), Method Summary heading and
note, the EQ filter-parameter table only when `notch_params` is passed
(the source call sites pass either a nonempty dict or nothing), the
Signal Analysis heading, one subsection per signal in list order, and
the footer (spacer, rule, footer line) — then renders the story.  The
result models the assembled content tree. -/
def build_pdf (filename method_label : String) (signals : List SignalDict)
    (method_note : String) (notch_params : Option (ℤ × ℤ) := none) :
    Except PyError (List Flowable) :=
  match signalSections signals with
  | Except.error e => Except.error e
  | Except.ok body =>
      Except.ok (
        [Flowable.titlePara "Sitar-Tabla Separation Report",
         Flowable.subtitlePara filename method_label, Flowable.hr,
         Flowable.sectionPara "Method Summary", Flowable.notePara method_note]
        ++ (match notch_params with
            | some (lo, hi) =>
                [Flowable.sectionPara "EQ Filter Parameters", Flowable.eqTable lo hi,
                 Flowable.spacer]
            | none => [])
        ++ [Flowable.sectionPara "Signal Analysis"]
        ++ body
        ++ [Flowable.spacer, Flowable.hr, Flowable.footerPara])

theorem signalSections_ok (signals : List SignalDict)
    (h : ∀ sig ∈ signals, sig.audio ≠ []) :
    signalSections signals =
      Except.ok (signals.flatMap fun sig =>
        signalFlowables sig (statsUnchecked sig.audio sig.sr)) := by
  induction signals with
  | nil => rfl
  | cons sig rest ih =>
      show (match signal_stats sig.audio sig.sr with
        | Except.error e => Except.error e
        | Except.ok st =>
            match signalSections rest with
            | Except.error e => Except.error e
            | Except.ok tail => Except.ok (signalFlowables sig st ++ tail)) = _
      rw [signal_stats_ok sig.audio sig.sr (h sig (List.mem_cons_self _ _)),
        ih fun s hs => h s (List.mem_cons_of_mem _ hs)]
      rfl

/-- C8: whenever every input signal is non-empty, the content tree
produced by `build_pdf` is exactly: title/metadata block, Method Summary
section, the filter-parameter table present precisely when filter
parameters were supplied, the Signal Analysis heading followed by one
subsection per signal in the given order — each a statistics table
followed by exactly three images (waveform, spectrum, spectrogram) —
and the footer. -/
theorem c8_report_order (filename method_label : String) (signals : List SignalDict)
    (method_note : String) (notch_params : Option (ℤ × ℤ))
    (h : ∀ sig ∈ signals, sig.audio ≠ []) :
    build_pdf filename method_label signals method_note notch_params =
      Except.ok (
        [Flowable.titlePara "Sitar-Tabla Separation Report",
         Flowable.subtitlePara filename method_label, Flowable.hr,
         Flowable.sectionPara "Method Summary", Flowable.notePara method_note]
        ++ (match notch_params with
            | some (lo, hi) =>
                [Flowable.sectionPara "EQ Filter Parameters", Flowable.eqTable lo hi,
                 Flowable.spacer]
            | none => [])
        ++ [Flowable.sectionPara "Signal Analysis"]
        ++ (signals.flatMap fun sig =>
             [Flowable.signalPara sig.label,
              Flowable.statsTable (statsUnchecked sig.audio sig.sr) sig.sr,
              Flowable.spacer,
              Flowable.image ImgKind.waveform sig.label, Flowable.spacer,
              Flowable.image ImgKind.fft sig.label, Flowable.spacer,
              Flowable.image ImgKind.spectrogram sig.label, Flowable.spacer,
              Flowable.hr])
        ++ [Flowable.spacer, Flowable.hr, Flowable.footerPara]) := by
  unfold build_pdf
  rw [signalSections_ok signals h]
  rfl

theorem c8_report_order_witness :
    (∀ sig ∈ [SignalDict.mk "Original Mix" [1] 44100], sig.audio ≠ []) ∧
    build_pdf "mix.wav" "HPSS (Analytical, Fast)"
        [SignalDict.mk "Original Mix" [1] 44100] "note" (some (10, 4000)) =
      Except.ok (
        [Flowable.titlePara "Sitar-Tabla Separation Report",
         Flowable.subtitlePara "mix.wav" "HPSS (Analytical, Fast)", Flowable.hr,
         Flowable.sectionPara "Method Summary", Flowable.notePara "note"]
        ++ [Flowable.sectionPara "EQ Filter Parameters", Flowable.eqTable 10 4000,
            Flowable.spacer]
        ++ [Flowable.sectionPara "Signal Analysis"]
        ++ [Flowable.signalPara "Original Mix",
            Flowable.statsTable (statsUnchecked [1] 44100) 44100, Flowable.spacer,
            Flowable.image ImgKind.waveform "Original Mix", Flowable.spacer,
            Flowable.image ImgKind.fft "Original Mix", Flowable.spacer,
            Flowable.image ImgKind.spectrogram "Original Mix", Flowable.spacer,
            Flowable.hr]
        ++ [Flowable.spacer, Flowable.hr, Flowable.footerPara]) := by
  have h : ∀ sig ∈ [SignalDict.mk "Original Mix" [1] 44100], sig.audio ≠ [] := by
    simp
  exact ⟨h, c8_report_order "mix.wav" "HPSS (Analytical, Fast)"
    [SignalDict.mk "Original Mix" [1] 44100] "note" (some (10, 4000)) h⟩

end SitarSep
